import Mathlib

/-!
Verification of the nanobot message bus (src/nanobot/bus/queue.py) and the
Discord channel adapter's delivery path (src/nanobot/channels/discord.py),
as a shallow embedding in Lean 4.

Modelling conventions:
- `asyncio.Queue` is a FIFO queue; it is embedded as a `List` where `put`
  appends at the tail and `get` removes the head.  A `get` on an empty
  queue suspends the caller; this is embedded as `Option`, with `none`
  standing for "no item available yet".
- Coroutines that can raise are embedded as functions into `Except String`.
  An adapter's `send` and a subscriber callback are such functions; the
  String carries the error message of the raised exception.
- The single-threaded cooperative scheduler is embedded by explicit state
  passing: each operation takes the current `MessageBus` state and returns
  the next one.  The dispatcher loop is given explicit fuel (its number of
  wait cycles) and returns, besides the final state, the trace of
  callback-invocation results of each iteration.
- HTTP I/O in the Discord adapter is embedded as an oracle: a function from
  (chunk index, attempt index) to the outcome of that POST, which is either
  a response with a status code or a raised transport exception.
-/

namespace Nanobot

/-- Modelled from the spec: `InboundMessage` (src/nanobot/bus/events.py is not
part of the provided sources).  "Attributes: `channel` (identifies which
adapter produced it), `sender_id`, `chat_id` (conversation/thread scope),
`content` (text), `media` (ordered sequence of local file references,
possibly empty), `metadata` (opaque mapping of platform-specific fields).
Immutable once constructed." -/
structure InboundMessage where
  channel : String
  sender_id : String
  chat_id : String
  content : String
  media : List String
  metadata : List (String × String)
deriving Repr, DecidableEq

/-- Modelled from the spec: `OutboundMessage` (src/nanobot/bus/events.py is not
part of the provided sources).  "Attributes: `channel`, `chat_id`, `content`,
optional `reply_to` (message id being replied to), optional attachment/media
references. Immutable." -/
structure OutboundMessage where
  channel : String
  chat_id : String
  content : String
  reply_to : Option String
  media : List String
deriving Repr, DecidableEq

/-- A subscriber callback `Callable[[OutboundMessage], Awaitable[None]]`:
it either completes (`ok`) or raises an exception carried as a `String`. -/
def Callback : Type := OutboundMessage → Except String Unit

/-- A channel adapter as seen by the bus: its `send(msg)` coroutine, which
either completes or raises. -/
def ChannelAdapter : Type := OutboundMessage → Except String Unit

/-- State of `MessageBus` (src/nanobot/bus/queue.py, class MessageBus).
Field names follow the Python attributes; the two `asyncio.Queue`s are
lists (head = oldest), the two dicts are association lists.  A registry
value `some none` embeds a key bound to a falsy value (e.g. `None`), while
`some (some f)` embeds a truthy adapter object. -/
structure MessageBus where
  inbound : List InboundMessage
  outbound : List OutboundMessage
  outbound_subscribers : List (String × List Callback)
  channels : List (String × Option ChannelAdapter)
  running : Bool

/-- `MessageBus.__init__`: empty queues, empty registries, dispatcher not
running. -/
def MessageBus.init : MessageBus :=
  { inbound := []
    outbound := []
    outbound_subscribers := []
    channels := []
    running := false }

/-- `dict.get(key)` on the channel registry: `none` when the key is absent,
`some v` when bound (where `v : Option ChannelAdapter` is the stored value). -/
def lookupChannel : List (String × Option ChannelAdapter) → String →
    Option (Option ChannelAdapter)
  | [], _ => none
  | (k, v) :: rest, ch => if k = ch then some v else lookupChannel rest ch

/-- `self._outbound_subscribers.get(msg.channel, [])`: association-list
lookup with default `[]`. -/
def getSubscribers : List (String × List Callback) → String → List Callback
  | [], _ => []
  | (k, v) :: rest, ch => if k = ch then v else getSubscribers rest ch

/-- `register_channels(channels)`: replaces the whole registry (it is an
assignment, not a merge). -/
def MessageBus.register_channels (bus : MessageBus)
    (chs : List (String × Option ChannelAdapter)) : MessageBus :=
  { bus with channels := chs }

/-- `publish_inbound(msg)`: `await self.inbound.put(msg)` — append at the
tail of the inbound queue. -/
def MessageBus.publish_inbound (bus : MessageBus) (msg : InboundMessage) :
    MessageBus :=
  { bus with inbound := bus.inbound ++ [msg] }

/-- `consume_inbound()`: `await self.inbound.get()` — remove and return the
oldest inbound message; `none` embeds suspension on an empty queue. -/
def MessageBus.consume_inbound (bus : MessageBus) :
    Option (InboundMessage × MessageBus) :=
  match bus.inbound with
  | [] => none
  | msg :: rest => some (msg, { bus with inbound := rest })

/-- `publish_outbound(msg)`: `await self.outbound.put(msg)`. -/
def MessageBus.publish_outbound (bus : MessageBus) (msg : OutboundMessage) :
    MessageBus :=
  { bus with outbound := bus.outbound ++ [msg] }

/-- `consume_outbound()`: `await self.outbound.get()`. -/
def MessageBus.consume_outbound (bus : MessageBus) :
    Option (OutboundMessage × MessageBus) :=
  match bus.outbound with
  | [] => none
  | msg :: rest => some (msg, { bus with outbound := rest })

/-- `send_direct(msg)`:
```
channel = self._channels.get(msg.channel)
if channel:
    await channel.send(msg)   # errors propagate to caller
else:
    await self.outbound.put(msg)
```
The truthiness test `if channel:` succeeds only when the registry holds a
truthy adapter (`some (some f)`); a missing key (`none`) and a falsy bound
value (`some none`) both take the fallback branch.  The result pairs the
outcome (the adapter's, or `ok` for the fallback) with the next bus state. -/
def MessageBus.send_direct (bus : MessageBus) (msg : OutboundMessage) :
    Except String Unit × MessageBus :=
  match lookupChannel bus.channels msg.channel with
  | some (some adapter) => (adapter msg, bus)
  | _ => (Except.ok (), { bus with outbound := bus.outbound ++ [msg] })

/-- `subscribe_outbound(channel, callback)`: create the per-channel list on
first use, then append the callback at its end. -/
def addSubscriber : List (String × List Callback) → String → Callback →
    List (String × List Callback)
  | [], ch, cb => [(ch, [cb])]
  | (k, v) :: rest, ch, cb =>
    if k = ch then (k, v ++ [cb]) :: rest else (k, v) :: addSubscriber rest ch cb

def MessageBus.subscribe_outbound (bus : MessageBus) (ch : String)
    (cb : Callback) : MessageBus :=
  { bus with outbound_subscribers := addSubscriber bus.outbound_subscribers ch cb }

/-- The inner `for callback in subscribers: try: await callback(msg)
except Exception as e: logger.error(...)` loop of `dispatch_outbound`: every
callback is invoked in order; a raised exception is caught (it is recorded
in the trace, standing for the log line) and the loop continues. -/
def runSubscribers : List Callback → OutboundMessage →
    List (Except String Unit)
  | [], _ => []
  | cb :: rest, msg =>
    match cb msg with
    | Except.ok u => Except.ok u :: runSubscribers rest msg
    | Except.error e => Except.error e :: runSubscribers rest msg

/-- One iteration of the `while self._running:` body of `dispatch_outbound`:
`asyncio.wait_for(self.outbound.get(), timeout=1.0)` either times out (empty
queue: the `except asyncio.TimeoutError: continue` branch, embedded as an
empty trace and unchanged state) or dequeues the oldest message and fans it
out to the subscribers registered for its channel. -/
def dispatch_iteration (bus : MessageBus) :
    MessageBus × List (Except String Unit) :=
  match bus.outbound with
  | [] => (bus, [])
  | msg :: rest =>
    ({ bus with outbound := rest },
     runSubscribers (getSubscribers bus.outbound_subscribers msg.channel) msg)

/-- The `while self._running:` loop of `dispatch_outbound`, with explicit
fuel bounding the number of wait cycles.  Besides the final state it returns
the trace of each executed iteration's callback results. -/
def dispatch_loop : Nat → MessageBus → MessageBus × List (List (Except String Unit))
  | 0, bus => (bus, [])
  | n + 1, bus =>
    if bus.running then
      ((dispatch_loop n (dispatch_iteration bus).1).1,
       (dispatch_iteration bus).2 :: (dispatch_loop n (dispatch_iteration bus).1).2)
    else (bus, [])

/-- `dispatch_outbound()`: sets `self._running = True` and enters the loop. -/
def MessageBus.dispatch_outbound (fuel : Nat) (bus : MessageBus) :
    MessageBus × List (List (Except String Unit)) :=
  dispatch_loop fuel { bus with running := true }

/-- `stop()`: `self._running = False`. -/
def MessageBus.stop (bus : MessageBus) : MessageBus :=
  { bus with running := false }

/-- `inbound_size` property: `self.inbound.qsize()`. -/
def MessageBus.inbound_size (bus : MessageBus) : Nat :=
  bus.inbound.length

/-- `outbound_size` property: `self.outbound.qsize()`. -/
def MessageBus.outbound_size (bus : MessageBus) : Nat :=
  bus.outbound.length

/-- Publishing a whole sequence of inbound messages, in order. -/
def publishAllInbound (bus : MessageBus) (ms : List InboundMessage) :
    MessageBus :=
  ms.foldl MessageBus.publish_inbound bus

/-- Publishing a whole sequence of outbound messages, in order. -/
def publishAllOutbound (bus : MessageBus) (ms : List OutboundMessage) :
    MessageBus :=
  ms.foldl MessageBus.publish_outbound bus

/-- Draining the inbound queue by repeated `consume_inbound`, up to `n`
messages, stopping when a consume would suspend. -/
def drainInbound : Nat → MessageBus → List InboundMessage
  | 0, _ => []
  | n + 1, bus =>
    match bus.consume_inbound with
    | none => []
    | some (msg, bus2) => msg :: drainInbound n bus2

/-- Draining the outbound queue by repeated `consume_outbound`. -/
def drainOutbound : Nat → MessageBus → List OutboundMessage
  | 0, _ => []
  | n + 1, bus =>
    match bus.consume_outbound with
    | none => []
    | some (msg, bus2) => msg :: drainOutbound n bus2

/-- `MAX_MESSAGE_LENGTH = 2000` (src/nanobot/channels/discord.py). -/
def MAX_MESSAGE_LENGTH : Nat := 2000

/-- Python `s.rfind(c)` restricted to a single character: the highest index
at which `c` occurs, `none` embedding Python's `-1`.  Strings are embedded
as `List Char`. -/
def rfindChar : List Char → Char → Option Nat
  | [], _ => none
  | x :: xs, c =>
    match rfindChar xs c with
    | some i => some (i + 1)
    | none => if x = c then some 0 else none

/-- Python `str.isspace()` for the ASCII whitespace characters relevant to
`lstrip()` here (space, tab, newline, carriage return, vertical tab, form
feed). -/
def isPySpace (c : Char) : Bool :=
  c = ' ' || c = '\t' || c = '\n' || c = '\r' || c = '\x0b' || c = '\x0c'

/-- Python `str.lstrip()`: drop leading whitespace. -/
def lstrip : List Char → List Char
  | [] => []
  | c :: cs => if isPySpace c then lstrip cs else c :: cs

/-- The cut-position computation of one `_split_message` loop iteration:
```
cut = content[:max_len]
pos = cut.rfind('\n')
if pos == -1: pos = cut.rfind(' ')
if pos == -1: pos = max_len
```
-/
def findCut (cut : List Char) (maxLen : Nat) : Nat :=
  match rfindChar cut '\n' with
  | some p => p
  | none =>
    match rfindChar cut ' ' with
    | some p => p
    | none => maxLen

/-- The `while content:` loop of `_split_message`, with explicit fuel.  Each
iteration appends `content[:pos]` and continues with
`content[pos:].lstrip()`.  Exhausting the fuel with content left (which the
Python loop would keep running on) yields `none`; fuel `content.length`
is proved sufficient whenever `1 ≤ max_len`. -/
def splitLoop (maxLen : Nat) : Nat → List Char → List (List Char) →
    Option (List (List Char))
  | 0, content, acc => if content = [] then some acc.reverse else none
  | fuel + 1, content, acc =>
    if content = [] then some acc.reverse
    else if content.length ≤ maxLen then some (acc.reverse ++ [content])
    else
      splitLoop maxLen fuel
        (lstrip (content.drop (findCut (content.take maxLen) maxLen)))
        (content.take (findCut (content.take maxLen) maxLen) :: acc)

/-- `_split_message(content, max_len)` (src/nanobot/channels/discord.py):
returns `some chunks` when the loop terminates, `none` embedding divergence
(possible only for `max_len = 0`). -/
def split_message (content : List Char) (maxLen : Nat) :
    Option (List (List Char)) :=
  if content.length ≤ maxLen then some [content]
  else splitLoop maxLen content.length content []

/-- Outcome of one `self._http.post(...)` call in `_send_payload`: either a
response with a status code, `retry_after` (from a 429 body) and body text,
or a raised transport exception. -/
inductive HttpOutcome where
  | resp (status : Nat) (retryAfter : Nat) (body : String)
  | exn (e : String)

/-- A post outcome counts as a successful delivery when it is a response
with a non-error status (`< 400`; in particular not 429). -/
def HttpOutcome.isSuccess : HttpOutcome → Bool
  | resp status _ _ => status < 400
  | exn _ => false

/-- Rendering of `last_error` in the exhausted-retries message (`None` when
no transport exception was ever caught, e.g. after three 429 responses). -/
def formatLastError : Option String → String
  | none => "None"
  | some e => e

/-- The `for attempt in range(3):` loop of `_send_payload`, over the post
oracle for one payload.  A 429 response sleeps and retries (consuming an
attempt), any other status `>= 400` raises immediately, a status `< 400`
returns successfully, and a transport exception records `last_error` and
retries; when the attempts are exhausted the final `RuntimeError` is
raised. -/
def sendPayloadLoop (post : Nat → HttpOutcome) :
    Nat → Nat → Option String → Except String Unit
  | 0, _, lastError =>
    Except.error
      ("Failed to send Discord message after 3 attempts: " ++
        formatLastError lastError)
  | fuel + 1, attempt, lastError =>
    match post attempt with
    | HttpOutcome.resp status _ body =>
      if status = 429 then sendPayloadLoop post fuel (attempt + 1) lastError
      else if 400 ≤ status then
        Except.error ("Discord API error " ++ toString status ++ ": " ++ body)
      else Except.ok ()
    | HttpOutcome.exn e => sendPayloadLoop post fuel (attempt + 1) (some e)

/-- `_send_payload(url, headers, payload)`: three attempts, starting with
`last_error = None`. -/
def send_payload (post : Nat → HttpOutcome) : Except String Unit :=
  sendPayloadLoop post 3 0 none

/-- The `for i, chunk in enumerate(chunks):` loop of `DiscordChannel.send`:
each chunk's payload goes through `_send_payload` (its post oracle is the
chunk's column of the two-dimensional oracle); the first raised error
propagates and the remaining chunks are not sent. -/
def sendChunks (post : Nat → Nat → HttpOutcome) :
    List (List Char) → Nat → Except String Unit
  | [], _ => Except.ok ()
  | _ :: rest, i =>
    match send_payload (post i) with
    | Except.ok _ => sendChunks post rest (i + 1)
    | Except.error e => Except.error e

/-- `chunks = _split_message(msg.content) if msg.content else [""]`: an empty
(falsy) content yields the single empty chunk; otherwise the split with the
default `max_len`.  The `getD []` default is dead code: `split_message`
always returns `some` for `max_len = 2000` (see `split_message_bounds`). -/
def discordChunks (content : List Char) : List (List Char) :=
  if content = [] then [[]]
  else (split_message content MAX_MESSAGE_LENGTH).getD []

/-- `DiscordChannel.send(msg)`: raises when the HTTP client is not
initialized (`httpInit = false`), otherwise sends every chunk of the split
content in order through `_send_payload`.  The trailing
`finally: await self._stop_typing(...)` only cancels a background typing
task and neither raises nor alters the delivery outcome, so it is not
modelled. -/
def DiscordChannel.send (httpInit : Bool) (post : Nat → Nat → HttpOutcome)
    (msg : OutboundMessage) : Except String Unit :=
  if httpInit = false then
    Except.error "Discord HTTP client not initialized"
  else sendChunks post (discordChunks msg.content.data) 0

/-! Concrete sample values used to evaluate the theorems on closed inputs. -/

def mIn1 : InboundMessage :=
  { channel := "discord", sender_id := "u1", chat_id := "42", content := "hi"
    media := [], metadata := [] }

def mIn2 : InboundMessage :=
  { mIn1 with content := "again" }

def mOut1 : OutboundMessage :=
  { channel := "discord", chat_id := "42", content := "hi", reply_to := none
    media := [] }

def mOutX : OutboundMessage :=
  { mOut1 with channel := "x" }

def mOutY : OutboundMessage :=
  { mOut1 with channel := "y" }

/-- An adapter whose send raises on every call. -/
def boomAdapter : ChannelAdapter := fun _ => Except.error "boom"

/-- A subscriber that raises on every call. -/
def boomCb : Callback := fun _ => Except.error "boom"

/-- A subscriber that completes on every call. -/
def okCb : Callback := fun _ => Except.ok ()

def busAdapterX : MessageBus :=
  { MessageBus.init with channels := [("x", some boomAdapter)] }

def busFalsyX : MessageBus :=
  { MessageBus.init with channels := [("x", none)] }

def busTwoSubs : MessageBus :=
  { MessageBus.init with
      outbound := [mOut1]
      outbound_subscribers := [("discord", [boomCb, okCb])] }

def busNoSubs : MessageBus :=
  { MessageBus.init with outbound := [mOut1] }

/-- A post oracle on which every attempt succeeds with status 200. -/
def okPost : Nat → Nat → HttpOutcome := fun _ _ => HttpOutcome.resp 200 0 ""

/-! Helper lemmas about the bus queues. -/

theorem publishAllInbound_inbound (ms : List InboundMessage) :
    ∀ bus : MessageBus, (publishAllInbound bus ms).inbound = bus.inbound ++ ms := by
  induction ms with
  | nil => intro bus; simp [publishAllInbound]
  | cons m t ih =>
    intro bus
    have h1 : publishAllInbound bus (m :: t) =
        publishAllInbound (bus.publish_inbound m) t := rfl
    rw [h1, ih]
    simp [MessageBus.publish_inbound]

theorem publishAllOutbound_outbound (ms : List OutboundMessage) :
    ∀ bus : MessageBus, (publishAllOutbound bus ms).outbound = bus.outbound ++ ms := by
  induction ms with
  | nil => intro bus; simp [publishAllOutbound]
  | cons m t ih =>
    intro bus
    have h1 : publishAllOutbound bus (m :: t) =
        publishAllOutbound (bus.publish_outbound m) t := rfl
    rw [h1, ih]
    simp [MessageBus.publish_outbound]

theorem drainInbound_spec (l : List InboundMessage) :
    ∀ bus : MessageBus, bus.inbound = l → drainInbound l.length bus = l := by
  induction l with
  | nil => intro bus _; rfl
  | cons m t ih =>
    intro bus h
    show drainInbound (t.length + 1) bus = m :: t
    simp only [drainInbound, MessageBus.consume_inbound, h]
    exact congrArg (m :: ·) (ih _ rfl)

theorem drainOutbound_spec (l : List OutboundMessage) :
    ∀ bus : MessageBus, bus.outbound = l → drainOutbound l.length bus = l := by
  induction l with
  | nil => intro bus _; rfl
  | cons m t ih =>
    intro bus h
    show drainOutbound (t.length + 1) bus = m :: t
    simp only [drainOutbound, MessageBus.consume_outbound, h]
    exact congrArg (m :: ·) (ih _ rfl)

/-- C1: for every sequence of messages published to the inbound queue via
`publish_inbound` (and likewise for the outbound queue via
`publish_outbound`), draining the queue with `consume_inbound`
(respectively `consume_outbound`) returns the messages in exactly their
enqueue order, each call removing and returning the oldest pending message;
no message is reordered, duplicated, or dropped. -/
theorem fifo_queues (ms : List InboundMessage) (os : List OutboundMessage) :
    drainInbound ms.length (publishAllInbound MessageBus.init ms) = ms ∧
    drainOutbound os.length (publishAllOutbound MessageBus.init os) = os ∧
    (∀ (bus : MessageBus) (m : InboundMessage) (rest : List InboundMessage),
      bus.inbound = m :: rest →
      bus.consume_inbound = some (m, { bus with inbound := rest })) ∧
    (∀ (bus : MessageBus) (m : OutboundMessage) (rest : List OutboundMessage),
      bus.outbound = m :: rest →
      bus.consume_outbound = some (m, { bus with outbound := rest })) := by
  refine ⟨?_, ?_, ?_, ?_⟩
  · exact drainInbound_spec ms _ (by rw [publishAllInbound_inbound]; rfl)
  · exact drainOutbound_spec os _ (by rw [publishAllOutbound_outbound]; rfl)
  · intro bus m rest h
    simp [MessageBus.consume_inbound, h]
  · intro bus m rest h
    simp [MessageBus.consume_outbound, h]

theorem fifo_queues_witness :
    drainInbound 2 (publishAllInbound MessageBus.init [mIn1, mIn2]) = [mIn1, mIn2] ∧
    MessageBus.consume_inbound { MessageBus.init with inbound := [mIn1, mIn2] } =
      some (mIn1, { MessageBus.init with inbound := [mIn2] }) :=
  ⟨(fifo_queues [mIn1, mIn2] []).1,
   (fifo_queues [] []).2.2.1 { MessageBus.init with inbound := [mIn1, mIn2] }
     mIn1 [mIn2] rfl⟩

/-- C2: for every message whose channel has a registered (truthy) adapter
whose send raises, `send_direct` raises the same error unchanged to its
caller and leaves the whole bus state — in particular both queues —
unchanged. -/
theorem send_direct_error_propagates (bus : MessageBus) (msg : OutboundMessage)
    (f : ChannelAdapter) (e : String)
    (hreg : lookupChannel bus.channels msg.channel = some (some f))
    (herr : f msg = Except.error e) :
    bus.send_direct msg = (Except.error e, bus) := by
  simp [MessageBus.send_direct, hreg, herr]

theorem send_direct_error_propagates_witness :
    MessageBus.send_direct busAdapterX mOutX = (Except.error "boom", busAdapterX) :=
  send_direct_error_propagates busAdapterX mOutX boomAdapter "boom" rfl rfl

/-- C3: for every message whose channel has no registered adapter,
`send_direct` does not raise and appends exactly that message at the tail
of the outbound queue; when the outbound queue was empty a subsequent
`consume_outbound` returns that exact message. -/
theorem send_direct_fallback (bus : MessageBus) (msg : OutboundMessage)
    (h : lookupChannel bus.channels msg.channel = none) :
    bus.send_direct msg =
      (Except.ok (), { bus with outbound := bus.outbound ++ [msg] }) ∧
    (bus.outbound = [] →
      MessageBus.consume_outbound (bus.send_direct msg).2 =
        some (msg, { bus with outbound := [] })) := by
  constructor
  · simp [MessageBus.send_direct, h]
  · intro hout
    simp [MessageBus.send_direct, h, MessageBus.consume_outbound, hout]

theorem send_direct_fallback_witness :
    MessageBus.send_direct MessageBus.init mOutY =
      (Except.ok (), { MessageBus.init with outbound := [mOutY] }) ∧
    MessageBus.consume_outbound (MessageBus.send_direct MessageBus.init mOutY).2 =
      some (mOutY, MessageBus.init) :=
  ⟨(send_direct_fallback MessageBus.init mOutY rfl).1,
   (send_direct_fallback MessageBus.init mOutY rfl).2 rfl⟩

/-- C9: `send_direct` decides by truthiness, not key presence: when the
registry binds the channel of the message to a falsy value (`None`), no
adapter is invoked and the message is enqueued onto the outbound queue,
exactly the same result as for an unregistered channel (compare
`send_direct_fallback`). -/
theorem send_direct_falsy_value (bus : MessageBus) (msg : OutboundMessage)
    (h : lookupChannel bus.channels msg.channel = some none) :
    bus.send_direct msg =
      (Except.ok (), { bus with outbound := bus.outbound ++ [msg] }) := by
  simp [MessageBus.send_direct, h]

theorem send_direct_falsy_value_witness :
    MessageBus.send_direct busFalsyX mOutX =
      (Except.ok (), { busFalsyX with outbound := [mOutX] }) :=
  send_direct_falsy_value busFalsyX mOutX rfl

/-- The subscriber loop invokes every callback in order: its trace is the
pointwise invocation of the registered list, whatever each call returns
(a raised exception is caught and the loop continues). -/
theorem runSubscribers_map (subs : List Callback) (msg : OutboundMessage) :
    runSubscribers subs msg = subs.map (fun cb => cb msg) := by
  induction subs with
  | nil => rfl
  | cons cb rest ih =>
    cases hc : cb msg with
    | ok u => simp [runSubscribers, hc, ih]
    | error e => simp [runSubscribers, hc, ih]

/-- C4: during one dispatch iteration, every subscriber registered for the
dequeued message channel is invoked with that message, in registration
order, even if earlier subscribers raise (the trace equals the full
pointwise map over the registered list, with no hypothesis on the outcome
of any call); the message is removed from the queue, and the dispatcher
loop continues to the next message afterwards. -/
theorem dispatch_isolation (bus : MessageBus) (msg : OutboundMessage)
    (rest : List OutboundMessage) (h : bus.outbound = msg :: rest) :
    (dispatch_iteration bus).2 =
      (getSubscribers bus.outbound_subscribers msg.channel).map (fun cb => cb msg) ∧
    (dispatch_iteration bus).1 = { bus with outbound := rest } ∧
    (∀ n : Nat, bus.running = true →
      dispatch_loop (n + 1) bus =
        ((dispatch_loop n { bus with outbound := rest }).1,
         (getSubscribers bus.outbound_subscribers msg.channel).map (fun cb => cb msg)
           :: (dispatch_loop n { bus with outbound := rest }).2)) := by
  have hit : dispatch_iteration bus =
      ({ bus with outbound := rest },
       runSubscribers (getSubscribers bus.outbound_subscribers msg.channel) msg) := by
    simp [dispatch_iteration, h]
  refine ⟨?_, ?_, ?_⟩
  · rw [hit]; exact runSubscribers_map _ _
  · rw [hit]
  · intro n hrun
    simp [dispatch_loop, hrun, hit, runSubscribers_map]

theorem dispatch_isolation_witness :
    (dispatch_iteration busTwoSubs).2 = [Except.error "boom", Except.ok ()] ∧
    (dispatch_iteration busTwoSubs).1 = { busTwoSubs with outbound := [] } :=
  ⟨((dispatch_isolation busTwoSubs mOut1 [] rfl).1).trans rfl,
   (dispatch_isolation busTwoSubs mOut1 [] rfl).2.1⟩

/-- C5: for every outbound message whose channel has zero registered
subscribers, one dispatch iteration removes that message from the outbound
queue, invokes no callback (empty trace), completes without error, does not
re-enqueue it (the remaining queue is exactly the rest), and
`outbound_size` decreases by one. -/
theorem dispatch_drops_unsubscribed (bus : MessageBus) (msg : OutboundMessage)
    (rest : List OutboundMessage) (h : bus.outbound = msg :: rest)
    (hsubs : getSubscribers bus.outbound_subscribers msg.channel = []) :
    dispatch_iteration bus = ({ bus with outbound := rest }, []) ∧
    (dispatch_iteration bus).1.outbound_size + 1 = bus.outbound_size := by
  have hit : dispatch_iteration bus = ({ bus with outbound := rest }, []) := by
    simp [dispatch_iteration, h, hsubs, runSubscribers]
  refine ⟨hit, ?_⟩
  rw [hit]
  simp [MessageBus.outbound_size, h]

theorem dispatch_drops_unsubscribed_witness :
    dispatch_iteration busNoSubs = ({ busNoSubs with outbound := [] }, []) ∧
    (dispatch_iteration busNoSubs).1.outbound_size + 1 = busNoSubs.outbound_size :=
  dispatch_drops_unsubscribed busNoSubs mOut1 [] rfl rfl

/-- C6: `stop` is idempotent, and once `stop` has been called the dispatcher
loop exits without executing any further iteration — for every remaining
fuel (number of bounded-wait cycles) the loop returns at once with an empty
trace, even on an empty outbound queue, and the final state never has the
running flag set again.  (The single in-flight bounded wait of the real
loop is the "at most one further 1-second wait" of the claim; in this
sequential embedding the loop body is atomic, so zero further iterations
run.) -/
theorem stop_idempotent_prompt :
    (∀ bus : MessageBus, bus.stop.stop = bus.stop) ∧
    (∀ (n : Nat) (bus : MessageBus), dispatch_loop n bus.stop = (bus.stop, [])) ∧
    (∀ (n : Nat) (bus : MessageBus),
      ((dispatch_loop n bus.stop).1).running = false) := by
  have hl : ∀ (n : Nat) (bus : MessageBus),
      dispatch_loop n bus.stop = (bus.stop, []) := by
    intro n bus
    cases n with
    | zero => rfl
    | succ m => simp [dispatch_loop, MessageBus.stop]
  exact ⟨fun _ => rfl, hl, fun n bus => by rw [hl]; rfl⟩

/-- C7: `stop` changes only the running flag: the inbound queue, the
outbound queue, the subscriber registry and the channel-adapter registry
are all unchanged — no message is drained, dropped, or destroyed. -/
theorem stop_frame (bus : MessageBus) :
    bus.stop.inbound = bus.inbound ∧
    bus.stop.outbound = bus.outbound ∧
    bus.stop.outbound_subscribers = bus.outbound_subscribers ∧
    bus.stop.channels = bus.channels :=
  ⟨rfl, rfl, rfl, rfl⟩

/-! Helper lemmas about `_split_message`. -/

theorem lstrip_length_le (l : List Char) : (lstrip l).length ≤ l.length := by
  induction l with
  | nil => exact Nat.le_refl _
  | cons c cs ih =>
    simp only [lstrip]
    split
    · exact Nat.le_trans ih (Nat.le_succ _)
    · exact Nat.le_refl _

theorem rfindChar_lt (c : Char) :
    ∀ (l : List Char) (p : Nat), rfindChar l c = some p → p < l.length := by
  intro l
  induction l with
  | nil => intro p h; cases h
  | cons x xs ih =>
    intro p h
    simp only [rfindChar] at h
    cases hr : rfindChar xs c with
    | some i =>
      rw [hr] at h
      cases h
      exact Nat.succ_lt_succ (ih i hr)
    | none =>
      rw [hr] at h
      by_cases hx : x = c
      · rw [if_pos hx] at h
        cases h
        exact Nat.succ_pos _
      · rw [if_neg hx] at h
        cases h

theorem rfindChar_zero_head (x : Char) (xs : List Char) (c : Char)
    (h : rfindChar (x :: xs) c = some 0) : x = c := by
  simp only [rfindChar] at h
  cases hr : rfindChar xs c with
  | some i => rw [hr] at h; cases h
  | none =>
    rw [hr] at h
    by_cases hx : x = c
    · exact hx
    · rw [if_neg hx] at h; cases h

theorem findCut_le (cut : List Char) (maxLen : Nat) (hlen : cut.length ≤ maxLen) :
    findCut cut maxLen ≤ maxLen := by
  unfold findCut
  cases h1 : rfindChar cut '\n' with
  | some p => exact Nat.le_of_lt (Nat.lt_of_lt_of_le (rfindChar_lt _ _ _ h1) hlen)
  | none =>
    cases h2 : rfindChar cut ' ' with
    | some p => exact Nat.le_of_lt (Nat.lt_of_lt_of_le (rfindChar_lt _ _ _ h2) hlen)
    | none => exact Nat.le_refl _

/-- When the cut position is 0 with a positive `max_len`, it came from an
`rfind` hit at index 0, so the cut starts with a newline or a space — a
whitespace character that the subsequent `lstrip` removes. -/
theorem findCut_zero_space (cut : List Char) (maxLen : Nat) (hm : 1 ≤ maxLen)
    (h : findCut cut maxLen = 0) :
    ∃ x xs, cut = x :: xs ∧ isPySpace x = true := by
  unfold findCut at h
  cases h1 : rfindChar cut '\n' with
  | some p =>
    rw [h1] at h
    subst h
    have hpos : 0 < cut.length := Nat.lt_of_le_of_lt (Nat.zero_le _) (rfindChar_lt _ _ _ h1)
    cases cut with
    | nil => cases hpos
    | cons x xs =>
      have hx : x = '\n' := rfindChar_zero_head x xs '\n' h1
      exact ⟨x, xs, rfl, by rw [hx]; rfl⟩
  | none =>
    rw [h1] at h
    cases h2 : rfindChar cut ' ' with
    | some p =>
      rw [h2] at h
      subst h
      have hpos : 0 < cut.length := Nat.lt_of_le_of_lt (Nat.zero_le _) (rfindChar_lt _ _ _ h2)
      cases cut with
      | nil => cases hpos
      | cons x xs =>
        have hx : x = ' ' := rfindChar_zero_head x xs ' ' h2
        exact ⟨x, xs, rfl, by rw [hx]; rfl⟩
    | none =>
      rw [h2] at h
      have hmz : maxLen = 0 := h
      omega

/-- One `_split_message` loop iteration strictly shrinks the content
whenever `1 ≤ max_len`: either the cut position is positive (so the drop
already shortens), or it is 0 and then the head is whitespace, removed by
`lstrip`. -/
theorem split_progress (content : List Char) (maxLen : Nat) (hm : 1 ≤ maxLen)
    (hlong : maxLen < content.length) :
    (lstrip (content.drop (findCut (content.take maxLen) maxLen))).length <
      content.length := by
  rcases Nat.eq_zero_or_pos (findCut (content.take maxLen) maxLen) with h0 | h1
  · obtain ⟨x, xs, hcut, hsp⟩ := findCut_zero_space _ _ hm h0
    cases content with
    | nil => simp at hlong
    | cons y t =>
      have hy : y = x := by
        cases maxLen with
        | zero => cases hm
        | succ m =>
          have : y :: t.take m = x :: xs := by
            simpa [List.take] using hcut
          exact (List.cons.injEq _ _ _ _ ▸ this).1
      rw [h0, List.drop_zero]
      have hstrip : lstrip (y :: t) = lstrip t := by
        simp only [lstrip, hy, hsp, if_pos]
      rw [hstrip]
      exact Nat.lt_of_le_of_lt (lstrip_length_le t) (Nat.lt_succ_self _)
  · have hd : (content.drop (findCut (content.take maxLen) maxLen)).length <
        content.length := by
      rw [List.length_drop]
      omega
    exact Nat.lt_of_le_of_lt (lstrip_length_le _) hd

/-- The `_split_message` loop terminates within `content.length` iterations
whenever `1 ≤ max_len`, and every chunk it appends has length at most
`max_len`. -/
theorem splitLoop_total (maxLen : Nat) (hm : 1 ≤ maxLen) :
    ∀ (fuel : Nat) (content : List Char) (acc : List (List Char)),
      content.length ≤ fuel →
      (∀ ch ∈ acc, ch.length ≤ maxLen) →
      ∃ r, splitLoop maxLen fuel content acc = some r ∧
        ∀ ch ∈ r, ch.length ≤ maxLen := by
  intro fuel
  induction fuel with
  | zero =>
    intro content acc hlen hacc
    have hc : content = [] := List.length_eq_zero.mp (Nat.le_zero.mp hlen)
    subst hc
    exact ⟨acc.reverse, rfl, fun ch hch => hacc ch (List.mem_reverse.mp hch)⟩
  | succ fuel ih =>
    intro content acc hlen hacc
    by_cases hnil : content = []
    · subst hnil
      exact ⟨acc.reverse, by simp [splitLoop],
        fun ch hch => hacc ch (List.mem_reverse.mp hch)⟩
    · by_cases hshort : content.length ≤ maxLen
      · refine ⟨acc.reverse ++ [content], by simp [splitLoop, hnil, hshort], ?_⟩
        intro ch hch
        rcases List.mem_append.mp hch with h | h
        · exact hacc ch (List.mem_reverse.mp h)
        · rw [List.mem_singleton.mp h]
          exact hshort
      · have hlong : maxLen < content.length := Nat.lt_of_not_le hshort
        have hprog := split_progress content maxLen hm hlong
        have hfuel :
            (lstrip (content.drop (findCut (content.take maxLen) maxLen))).length ≤
              fuel := by omega
        have hacc2 : ∀ ch ∈ content.take (findCut (content.take maxLen) maxLen) :: acc,
            ch.length ≤ maxLen := by
          intro ch hch
          rcases List.mem_cons.mp hch with hh | hh
          · subst hh
            have hple : findCut (content.take maxLen) maxLen ≤ maxLen :=
              findCut_le _ _ (by rw [List.length_take]; omega)
            calc (content.take (findCut (content.take maxLen) maxLen)).length
                ≤ findCut (content.take maxLen) maxLen := by
                  rw [List.length_take]; omega
              _ ≤ maxLen := hple
          · exact hacc ch hh
        obtain ⟨r, hr, hb⟩ := ih _ _ hfuel hacc2
        refine ⟨r, ?_, hb⟩
        rw [splitLoop, if_neg hnil, if_neg hshort]
        exact hr

/-- C10: for every content string and every `max_len >= 1`,
`_split_message(content, max_len)` terminates (the fuelled loop yields a
result instead of running out) and every chunk in the returned list has
length at most `max_len` — in particular every chunk fits the 2000-character
Discord limit under the default `MAX_MESSAGE_LENGTH`. -/
theorem split_message_bounds (content : List Char) (maxLen : Nat)
    (hm : 1 ≤ maxLen) :
    ∃ chunks, split_message content maxLen = some chunks ∧
      ∀ c ∈ chunks, c.length ≤ maxLen := by
  unfold split_message
  by_cases h : content.length ≤ maxLen
  · refine ⟨[content], by rw [if_pos h], ?_⟩
    intro c hc
    rw [List.mem_singleton.mp hc]
    exact h
  · rw [if_neg h]
    exact splitLoop_total maxLen hm content.length content [] (Nat.le_refl _)
      (fun ch hch => absurd hch (List.not_mem_nil ch))

theorem split_message_bounds_witness :
    ∃ chunks, split_message ['a', 'b', ' ', 'c', 'd'] MAX_MESSAGE_LENGTH = some chunks ∧
      ∀ c ∈ chunks, c.length ≤ MAX_MESSAGE_LENGTH :=
  split_message_bounds ['a', 'b', ' ', 'c', 'd'] MAX_MESSAGE_LENGTH (by decide)

/-! Helper lemmas about the Discord delivery path. -/

/-- When the `_send_payload` retry loop returns successfully, some attempt
within its remaining budget actually received a non-error response: there
is no path to success other than a successful POST. -/
theorem sendPayloadLoop_ok (post : Nat → HttpOutcome) :
    ∀ (fuel attempt : Nat) (lastError : Option String),
      sendPayloadLoop post fuel attempt lastError = Except.ok () →
      ∃ a, attempt ≤ a ∧ a < attempt + fuel ∧ (post a).isSuccess = true := by
  intro fuel
  induction fuel with
  | zero =>
    intro attempt lastError h
    simp [sendPayloadLoop] at h
  | succ fuel ih =>
    intro attempt lastError h
    rw [sendPayloadLoop] at h
    cases hp : post attempt with
    | resp status retryAfter body =>
      simp only [hp] at h
      by_cases h429 : status = 429
      · rw [if_pos h429] at h
        obtain ⟨a, h1, h2, h3⟩ := ih (attempt + 1) lastError h
        exact ⟨a, by omega, by omega, h3⟩
      · rw [if_neg h429] at h
        by_cases h400 : 400 ≤ status
        · rw [if_pos h400] at h
          cases h
        · refine ⟨attempt, Nat.le_refl _, by omega, ?_⟩
          rw [hp]
          simp [HttpOutcome.isSuccess]
          omega
    | exn e =>
      simp only [hp] at h
      obtain ⟨a, h1, h2, h3⟩ := ih (attempt + 1) (some e) h
      exact ⟨a, by omega, by omega, h3⟩

/-- When the chunk loop of `send` returns successfully, every chunk went
through a successful `_send_payload`. -/
theorem sendChunks_ok (post : Nat → Nat → HttpOutcome) :
    ∀ (chunks : List (List Char)) (i : Nat),
      sendChunks post chunks i = Except.ok () →
      ∀ j, j < chunks.length → send_payload (post (i + j)) = Except.ok () := by
  intro chunks
  induction chunks with
  | nil =>
    intro i _ j hj
    exact absurd hj (Nat.not_lt_zero j)
  | cons c rest ih =>
    intro i h j hj
    rw [sendChunks] at h
    cases hp : send_payload (post i) with
    | ok u =>
      simp only [hp] at h
      cases j with
      | zero =>
        rw [Nat.add_zero, hp]
      | succ j2 =>
        have hj2 : j2 < rest.length := by
          simpa using Nat.lt_of_succ_lt_succ hj
        have := ih (i + 1) h j2 hj2
        rw [show i + (j2 + 1) = i + 1 + j2 by omega]
        exact this
    | error e =>
      simp only [hp] at h
      cases h

/-- C8: the Discord channel adapter never silently drops a message: whenever
`DiscordChannel.send` completes without raising, every chunk of the split
content was actually posted successfully — some attempt among the three
received a non-error HTTP response.  (Every other outcome of the delivery —
uninitialized client, a non-retryable error status, or three exhausted
attempts — returns `Except.error`, i.e. raises to the caller.) -/
theorem discord_send_no_silent_drop (httpInit : Bool)
    (post : Nat → Nat → HttpOutcome) (msg : OutboundMessage)
    (h : DiscordChannel.send httpInit post msg = Except.ok ()) :
    ∀ j, j < (discordChunks msg.content.data).length →
      ∃ a, a < 3 ∧ (post j a).isSuccess = true := by
  intro j hj
  unfold DiscordChannel.send at h
  by_cases hb : httpInit = false
  · rw [if_pos hb] at h
    cases h
  · rw [if_neg hb] at h
    have hc := sendChunks_ok post _ 0 h j hj
    rw [Nat.zero_add] at hc
    unfold send_payload at hc
    obtain ⟨a, h0, h3, hs⟩ := sendPayloadLoop_ok (post j) 3 0 none hc
    exact ⟨a, by omega, hs⟩

theorem discord_send_no_silent_drop_witness :
    ∃ a, a < 3 ∧ (okPost 0 a).isSuccess = true :=
  discord_send_no_silent_drop true okPost mOut1 rfl 0 (by decide)

end Nanobot
